import Mathlib

/-!
Verification of the `jam-plugins` buddy-list logger plugin.

The repository holds two near-duplicate JavaScript implementations of the
same plugin: `src/plugins/buddyListLogger/index.js` (with config persistence
and an on-log append to the ignore list) and `src/unnamed/part_000` (the
simpler variant, with a session-clear command and no ignore-list append).

The embedding follows the source:
* a packet record is the `%`-split field list (`parts`), a `List String`;
* JavaScript out-of-range access `parts[j]` yields `undefined`, which the
  source only ever consumes through falsy checks (`parts[j] && …`,
  `parts[j] || default`) or comparison with a non-empty literal; both behave
  exactly like `List.getD parts j ""`, which is used throughout;
* mutable plugin state becomes `LoggerState`, threaded explicitly;
* the append-only log file becomes `logFile : List (String × String)`,
  one `(username, status)` pair per appended line (the ISO timestamp text
  carries no information relevant to any claim);
* the `bl` scan loop is `scanBlAux`, structurally recursive on a fuel
  argument instantiated with `parts.length` by `extractBl`; that fuel is
  always sufficient because the scan index strictly increases and stays
  below `parts.length`, and the result is proved independent of the fuel
  beyond that bound;
* the source interleaves extraction with calls to `logBuddy`; since
  `logBuddy` never reads `parts`, the handlers are the fold of `logBuddy`
  over the extracted observation list.
-/

/-- Mutable state of the plugin (`index.js` lines 10-13 and 16: the enabled
flag, the custom base path, the two in-memory sets), together with the
on-disk artifacts the handlers append to: the buddy log file, the ignore
list file, and the persisted `config.json` contents. -/
structure LoggerState where
  isLoggingEnabled : Bool
  customBasePath : Option String
  ignoredUsernames : List String
  loggedBuddiesThisSession : List String
  logFile : List (String × String)
  ignoreFile : List String
  savedConfig : Option (Option String × Bool)
deriving DecidableEq

/-- Hex digit as accepted by the source's `[0-9a-f]` character class under
the `/i` flag. -/
def isHexDigit (c : Char) : Bool :=
  c.isDigit || ('a' ≤ c && c ≤ 'f') || ('A' ≤ c && c ≤ 'F')

/-- Character admitted at position `i` of a canonical UUID: a dash at
positions 8, 13, 18, 23 and a hex digit elsewhere. -/
def isUuidChar (i : Nat) (c : Char) : Bool :=
  if i == 8 || i == 13 || i == 18 || i == 23 then c == '-' else isHexDigit c

/-- The source's `uuidRegex`
`/^[0-9a-f]{8}-[0-9a-f]{4}-[0-9a-f]{4}-[0-9a-f]{4}-[0-9a-f]{12}$/i`:
exactly 36 characters, dashes at positions 8, 13, 18, 23, hex digits
elsewhere. -/
def isUuid (s : String) : Bool :=
  s.toList.length == 36 && s.toList.enum.all (fun p => isUuidChar p.1 p.2)

/-- JavaScript's `toLowerCase`, written structurally on the character list
so that it evaluates by kernel reduction (ASCII-equivalent to
`String.toLower`). -/
def toLowerStr (s : String) : String := String.mk (s.toList.map Char.toLower)

/-- The source's `/^\d+$/` test: non-empty and all decimal digits. -/
def isNumericStr (s : String) : Bool :=
  !s.toList.isEmpty && s.toList.all Char.isDigit

/-- `logBuddy` of `index.js` (lines 127-172): skip when logging is disabled
or the lowercased username is in the ignore set or the session set;
otherwise add the lowercased name to both sets, append one line to the log
file and the raw username to the ignore file. -/
def logBuddy (s : LoggerState) (username status : String) : LoggerState :=
  if !s.isLoggingEnabled then s
  else
    let usernameLower := toLowerStr username
    if usernameLower ∈ s.ignoredUsernames ∨ usernameLower ∈ s.loggedBuddiesThisSession then s
    else
      { s with
        loggedBuddiesThisSession := usernameLower :: s.loggedBuddiesThisSession
        ignoredUsernames := usernameLower :: s.ignoredUsernames
        logFile := s.logFile ++ [(username, status)]
        ignoreFile := s.ignoreFile ++ [username] }

/-- `logBuddy` of `part_000` (lines 58-88): identical to the `index.js`
variant except that it does not touch the ignore set or the ignore file. -/
def logBuddyV0 (s : LoggerState) (username status : String) : LoggerState :=
  if !s.isLoggingEnabled then s
  else
    let usernameLower := toLowerStr username
    if usernameLower ∈ s.ignoredUsernames ∨ usernameLower ∈ s.loggedBuddiesThisSession then s
    else
      { s with
        loggedBuddiesThisSession := usernameLower :: s.loggedBuddiesThisSession
        logFile := s.logFile ++ [(username, status)] }

/-- Feed a sequence of observations through the `index.js` sink. -/
def processObs (s : LoggerState) (obs : List (String × String)) : LoggerState :=
  obs.foldl (fun st o => logBuddy st o.1 o.2) s

/-- Feed a sequence of observations through the `part_000` sink. -/
def processObsV0 (s : LoggerState) (obs : List (String × String)) : LoggerState :=
  obs.foldl (fun st o => logBuddyV0 st o.1 o.2) s

/-- `handleClearCommand` of `part_000` (lines 231-237): empty the session
set, leave everything else alone. -/
def handleClearCommand (s : LoggerState) : LoggerState :=
  { s with loggedBuddiesThisSession := [] }

/-- Number of log lines whose username lowercases to `n`. -/
def countName (log : List (String × String)) (n : String) : Nat :=
  (log.filter (fun e => toLowerStr e.1 == n)).length

/-- The inner `for` loop of `handleBuddyList`: first index `j ≥` the start
index whose field is UUID-shaped (`parts[j] && uuidRegex.test(parts[j])`;
the truthiness guard is subsumed by `isUuid "" = false`). -/
def findUuidAux : List String → Nat → Option Nat
  | [], _ => none
  | p :: rest, j => if isUuid p then some j else findUuidAux rest (j + 1)

/-- First index `≥ i` of a UUID-shaped field of `parts`. -/
def findUuid (parts : List String) (i : Nat) : Option Nat :=
  findUuidAux (parts.drop i) i

/-- Observation produced by one `bl`-loop iteration that matched a UUID at
index `u` having started the scan at `currentIndex` (lines 207-215 of
`index.js`): when a field precedes the UUID inside the current window, take
it as the username and the field after the UUID (or `"unknown"` when absent
or empty) as the status; keep it only if the username is non-empty, not
purely numeric and not itself UUID-shaped. -/
def blObsAt (parts : List String) (currentIndex u : Nat) : List (String × String) :=
  if currentIndex < u then
    let username := parts.getD (u - 1) ""
    let status := if parts.getD (u + 1) "" = "" then "unknown" else parts.getD (u + 1) ""
    if username ≠ "" ∧ isNumericStr username = false ∧ isUuid username = false then
      [(username, status)]
    else []
  else []

/-- The `while` loop of `handleBuddyList` (lines 191-219 of `index.js`) as a
fueled recursion: find the next UUID from `currentIndex`, emit the
observation for it, resume just past the UUID. -/
def scanBlAux : Nat → List String → Nat → List (String × String)
  | 0, _, _ => []
  | fuel + 1, parts, currentIndex =>
    match findUuid parts currentIndex with
    | none => []
    | some u => blObsAt parts currentIndex u ++ scanBlAux fuel parts (u + 1)

/-- Header test of `handleBuddyList` (line 187 of `index.js`):
`parts.length >= 6 && parts[1] === 'xt' && parts[2] === 'bl' && parts[4] === '0'`. -/
def blShape (parts : List String) : Bool :=
  decide (6 ≤ parts.length) && (parts.getD 1 "" == "xt")
    && (parts.getD 2 "" == "bl") && (parts.getD 4 "" == "0")

/-- Header test of `handleBuddyAdded` (line 236 of `index.js`):
`parts.length >= 7 && parts[1] === 'xt' && parts[2] === 'ba'`. -/
def baShape (parts : List String) : Bool :=
  decide (7 ≤ parts.length) && (parts.getD 1 "" == "xt") && (parts.getD 2 "" == "ba")

/-- Header test of `handleBuddyOnline` (line 259 of `index.js`):
`parts.length >= 5 && parts[1] === 'xt' && parts[2] === 'bon'`. -/
def bonShape (parts : List String) : Bool :=
  decide (5 ≤ parts.length) && (parts.getD 1 "" == "xt") && (parts.getD 2 "" == "bon")

/-- Observations extracted from a `bl` record: when the header matches, run
the scan loop from index 5 with `parts.length` fuel; otherwise nothing. -/
def extractBl (parts : List String) : List (String × String) :=
  if blShape parts then scanBlAux parts.length parts 5 else []

/-- Observations extracted from a `ba` record (lines 236-243 of `index.js`):
username at index 4, status at index 6 (`parts[6] || 'online'`), skipped
when the username is empty. -/
def extractBa (parts : List String) : List (String × String) :=
  if baShape parts then
    let username := parts.getD 4 ""
    let status := if parts.getD 6 "" = "" then "online" else parts.getD 6 ""
    if username ≠ "" then [(username, status)] else []
  else []

/-- Observations extracted from a `bon` record (lines 259-265 of
`index.js`): username at index 4, status fixed to `"online"`, skipped when
the username is empty. -/
def extractBon (parts : List String) : List (String × String) :=
  if bonShape parts then
    let username := parts.getD 4 ""
    if username ≠ "" then [(username, "online")] else []
  else []

/-- `handleBuddyList` as a state transformer: nothing when logging is
disabled, else feed each extracted observation to `logBuddy` in order. -/
def handleBuddyList (s : LoggerState) (parts : List String) : LoggerState :=
  if !s.isLoggingEnabled then s else processObs s (extractBl parts)

/-- `handleBuddyAdded` as a state transformer. -/
def handleBuddyAdded (s : LoggerState) (parts : List String) : LoggerState :=
  if !s.isLoggingEnabled then s else processObs s (extractBa parts)

/-- `handleBuddyOnline` as a state transformer. -/
def handleBuddyOnline (s : LoggerState) (parts : List String) : LoggerState :=
  if !s.isLoggingEnabled then s else processObs s (extractBon parts)

/-- `saveConfig` (lines 46-65 of `index.js`): persist the current custom
path and enabled flag. -/
def saveConfig (s : LoggerState) : LoggerState :=
  { s with savedConfig := some (s.customBasePath, s.isLoggingEnabled) }

/-- `handleLogCommand` (lines 273-311 of `index.js`): with no argument,
toggle the flag and save; with `on`/`enable` or `off`/`disable`
(case-insensitively), set it and save; with `status` or anything else, only
print a message. -/
def handleLogCommand (s : LoggerState) (parameters : List String) : LoggerState :=
  match parameters with
  | [] => saveConfig { s with isLoggingEnabled := !s.isLoggingEnabled }
  | p :: _ =>
    let action := toLowerStr p
    if action == "on" || action == "enable" then
      saveConfig { s with isLoggingEnabled := true }
    else if action == "off" || action == "disable" then
      saveConfig { s with isLoggingEnabled := false }
    else if action == "status" then s
    else s

/-- JavaScript truthiness of the nullable string `customBasePath`: `null`
and `""` are falsy. -/
def strTruthy : Option String → Bool
  | none => false
  | some s => !(s == "")

/-- `getBasePath` (lines 68-78 of `index.js`) as a function of the
configured custom path, the two candidate directories and whether the
default `data` directory exists: a (truthy) custom path wins, else the
`data` directory when it exists, else the desktop directory. -/
def getBasePath (customBasePath : Option String)
    (defaultDataPath desktopPath : String) (dataDirExists : Bool) : String :=
  if strTruthy customBasePath then customBasePath.getD ""
  else if dataDirExists then defaultDataPath else desktopPath

/-- One buddy entry of a well-formed `bl` record: the three consecutive
fields `username`, `uuid`, `status` (the shape of the spec's example
record). -/
structure BuddyEntry where
  username : String
  uuid : String
  status : String

/-- The three fields an entry contributes to the record. -/
def entryFields (e : BuddyEntry) : List String := [e.username, e.uuid, e.status]

/-- Well-formedness of an entry: the middle field is UUID-shaped, the
username passes the source's candidate guard (non-empty, not purely
numeric, not UUID-shaped), and the status is not itself UUID-shaped (so
that it cannot be taken for the next entry's bracket). -/
def entryWf (e : BuddyEntry) : Prop :=
  isUuid e.uuid = true ∧ e.username ≠ "" ∧ isNumericStr e.username = false ∧
    isUuid e.username = false ∧ isUuid e.status = false

instance (e : BuddyEntry) : Decidable (entryWf e) := by
  unfold entryWf
  infer_instance

/-- Observation the extractor is expected to produce for an entry. -/
def entryObs (e : BuddyEntry) : String × String :=
  (e.username, if e.status = "" then "unknown" else e.status)

/-- A well-formed `bl` record: the header of the spec's example followed by
the buddy entries. -/
def blRecord (es : List BuddyEntry) : List String :=
  ["", "xt", "bl", "-1", "0", "0"] ++ es.flatMap entryFields

/-! ### Lemmas about the UUID scan -/

theorem isUuid_empty : isUuid "" = false := by decide

theorem findUuidAux_bounds (l : List String) (j u : Nat)
    (h : findUuidAux l j = some u) : j ≤ u ∧ u < j + l.length := by
  induction l generalizing j with
  | nil => simp [findUuidAux] at h
  | cons p rest ih =>
    simp only [findUuidAux] at h
    split at h
    · cases h
      simp only [List.length_cons]
      omega
    · have := ih (j + 1) h
      simp only [List.length_cons]
      omega

theorem findUuid_bounds (parts : List String) (i u : Nat)
    (h : findUuid parts i = some u) : i ≤ u ∧ u < parts.length := by
  have hb := findUuidAux_bounds (parts.drop i) i u h
  rw [List.length_drop] at hb
  omega

theorem findUuid_past (parts : List String) (i : Nat) (h : parts.length ≤ i) :
    findUuid parts i = none := by
  unfold findUuid
  rw [List.drop_eq_nil_of_le h]
  rfl

theorem findUuid_step (parts : List String) (i : Nat) (h : i < parts.length) :
    findUuid parts i =
      if isUuid (parts.getD i "") then some i else findUuid parts (i + 1) := by
  have hg : parts.getD i "" = parts[i] := List.getD_eq_getElem parts "" h
  unfold findUuid
  rw [List.drop_eq_getElem_cons h]
  simp only [findUuidAux]
  rw [hg]

theorem findUuid_none_of_aux (parts : List String) :
    ∀ d i, parts.length - i ≤ d →
    (∀ j, i ≤ j → isUuid (parts.getD j "") = false) →
    findUuid parts i = none := by
  intro d
  induction d with
  | zero =>
    intro i hle _
    exact findUuid_past parts i (by omega)
  | succ d ih =>
    intro i hle h
    by_cases hi : i < parts.length
    · rw [findUuid_step parts i hi]
      simp only [h i le_rfl, Bool.false_eq_true, if_false]
      exact ih (i + 1) (by omega) (fun j hj => h j (by omega))
    · exact findUuid_past parts i (by omega)

theorem findUuid_none_of (parts : List String) (i : Nat)
    (h : ∀ j, i ≤ j → isUuid (parts.getD j "") = false) :
    findUuid parts i = none :=
  findUuid_none_of_aux parts (parts.length - i) i le_rfl h

theorem findUuid_some_of_aux (parts : List String) :
    ∀ d i t, t - i ≤ d → i ≤ t → t < parts.length →
    isUuid (parts.getD t "") = true →
    (∀ j, i ≤ j → j < t → isUuid (parts.getD j "") = false) →
    findUuid parts i = some t := by
  intro d
  induction d with
  | zero =>
    intro i t hd hle ht hu _
    have hit : i = t := by omega
    subst hit
    rw [findUuid_step parts i ht, hu]
    simp
  | succ d ih =>
    intro i t hd hle ht hu hlow
    by_cases hit : i = t
    · subst hit
      rw [findUuid_step parts i ht, hu]
      simp
    · have hi : i < parts.length := by omega
      rw [findUuid_step parts i hi]
      simp only [hlow i le_rfl (by omega), Bool.false_eq_true, if_false]
      exact ih (i + 1) t (by omega) (by omega) ht hu (fun j hj1 hj2 => hlow j (by omega) hj2)

theorem findUuid_some_of (parts : List String) (i t : Nat)
    (hle : i ≤ t) (ht : t < parts.length)
    (hu : isUuid (parts.getD t "") = true)
    (hlow : ∀ j, i ≤ j → j < t → isUuid (parts.getD j "") = false) :
    findUuid parts i = some t :=
  findUuid_some_of_aux parts (t - i) i t le_rfl hle ht hu hlow

theorem scanBlAux_fuel (parts : List String) :
    ∀ fuel fuel' i, parts.length - i ≤ fuel → parts.length - i ≤ fuel' →
    scanBlAux fuel parts i = scanBlAux fuel' parts i := by
  intro fuel
  induction fuel with
  | zero =>
    intro fuel' i h1 _
    have hnone : findUuid parts i = none := findUuid_past parts i (by omega)
    cases fuel' with
    | zero => rfl
    | succ f => simp [scanBlAux, hnone]
  | succ f ih =>
    intro fuel' i h1 h2
    cases fuel' with
    | zero =>
      have hnone : findUuid parts i = none := findUuid_past parts i (by omega)
      simp [scanBlAux, hnone]
    | succ f' =>
      simp only [scanBlAux]
      cases hf : findUuid parts i with
      | none => rfl
      | some u =>
        have hb := findUuid_bounds parts i u hf
        dsimp only
        rw [ih f' (u + 1) (by omega) (by omega)]

/-! ### Lemmas about the logging sink -/

theorem countName_append (l : List (String × String)) (e : String × String) (n : String) :
    countName (l ++ [e]) n = countName l n + (if toLowerStr e.1 == n then 1 else 0) := by
  simp only [countName, List.filter_append, List.length_append]
  congr 1
  by_cases h : toLowerStr e.1 == n
  · simp [List.filter, h]
  · simp [List.filter, h]

theorem logBuddy_logFile_of_mem (s : LoggerState) (u st : String)
    (h : toLowerStr u ∈ s.ignoredUsernames ∨ toLowerStr u ∈ s.loggedBuddiesThisSession) :
    (logBuddy s u st).logFile = s.logFile := by
  unfold logBuddy
  dsimp only
  split_ifs <;> rfl

theorem logBuddyV0_logFile_of_mem (s : LoggerState) (u st : String)
    (h : toLowerStr u ∈ s.ignoredUsernames ∨ toLowerStr u ∈ s.loggedBuddiesThisSession) :
    (logBuddyV0 s u st).logFile = s.logFile := by
  unfold logBuddyV0
  dsimp only
  split_ifs <;> rfl

theorem logBuddy_sess_mono (s : LoggerState) (u st n : String)
    (h : n ∈ s.loggedBuddiesThisSession) :
    n ∈ (logBuddy s u st).loggedBuddiesThisSession := by
  unfold logBuddy
  dsimp only
  split_ifs with h1 h2
  · exact h
  · exact h
  · exact List.mem_cons_of_mem _ h

theorem logBuddyV0_sess_mono (s : LoggerState) (u st n : String)
    (h : n ∈ s.loggedBuddiesThisSession) :
    n ∈ (logBuddyV0 s u st).loggedBuddiesThisSession := by
  unfold logBuddyV0
  dsimp only
  split_ifs with h1 h2
  · exact h
  · exact h
  · exact List.mem_cons_of_mem _ h

theorem logBuddy_ign_mono (s : LoggerState) (u st n : String)
    (h : n ∈ s.ignoredUsernames) :
    n ∈ (logBuddy s u st).ignoredUsernames := by
  unfold logBuddy
  dsimp only
  split_ifs with h1 h2
  · exact h
  · exact h
  · exact List.mem_cons_of_mem _ h

theorem logBuddyV0_ign_mono (s : LoggerState) (u st n : String)
    (h : n ∈ s.ignoredUsernames) :
    n ∈ (logBuddyV0 s u st).ignoredUsernames := by
  unfold logBuddyV0
  dsimp only
  split_ifs with h1 h2
  · exact h
  · exact h
  · exact h

theorem logBuddy_count_frozen (s : LoggerState) (u st n : String)
    (h : n ∈ s.ignoredUsernames ∨ n ∈ s.loggedBuddiesThisSession) :
    countName (logBuddy s u st).logFile n = countName s.logFile n := by
  unfold logBuddy
  dsimp only
  split_ifs with h1 h2
  · rfl
  · rfl
  · show countName (s.logFile ++ [(u, st)]) n = countName s.logFile n
    have hne : toLowerStr u ≠ n := by
      intro he
      exact h2 (by rw [he]; exact h)
    rw [countName_append]
    simp [hne]

theorem logBuddyV0_count_frozen (s : LoggerState) (u st n : String)
    (h : n ∈ s.ignoredUsernames ∨ n ∈ s.loggedBuddiesThisSession) :
    countName (logBuddyV0 s u st).logFile n = countName s.logFile n := by
  unfold logBuddyV0
  dsimp only
  split_ifs with h1 h2
  · rfl
  · rfl
  · show countName (s.logFile ++ [(u, st)]) n = countName s.logFile n
    have hne : toLowerStr u ≠ n := by
      intro he
      exact h2 (by rw [he]; exact h)
    rw [countName_append]
    simp [hne]

theorem logBuddy_step (s : LoggerState) (u st n : String) :
    countName (logBuddy s u st).logFile n = countName s.logFile n ∨
      (countName (logBuddy s u st).logFile n = countName s.logFile n + 1 ∧
        n ∈ (logBuddy s u st).loggedBuddiesThisSession) := by
  unfold logBuddy
  dsimp only
  split_ifs with h1 h2
  · exact Or.inl rfl
  · exact Or.inl rfl
  · by_cases he : toLowerStr u = n
    · refine Or.inr ⟨?_, ?_⟩
      · show countName (s.logFile ++ [(u, st)]) n = countName s.logFile n + 1
        rw [countName_append]
        simp [he]
      · show n ∈ toLowerStr u :: s.loggedBuddiesThisSession
        rw [he]
        exact List.mem_cons_self _ _
    · left
      show countName (s.logFile ++ [(u, st)]) n = countName s.logFile n
      rw [countName_append]
      simp [he]

theorem logBuddyV0_step (s : LoggerState) (u st n : String) :
    countName (logBuddyV0 s u st).logFile n = countName s.logFile n ∨
      (countName (logBuddyV0 s u st).logFile n = countName s.logFile n + 1 ∧
        n ∈ (logBuddyV0 s u st).loggedBuddiesThisSession) := by
  unfold logBuddyV0
  dsimp only
  split_ifs with h1 h2
  · exact Or.inl rfl
  · exact Or.inl rfl
  · by_cases he : toLowerStr u = n
    · refine Or.inr ⟨?_, ?_⟩
      · show countName (s.logFile ++ [(u, st)]) n = countName s.logFile n + 1
        rw [countName_append]
        simp [he]
      · show n ∈ toLowerStr u :: s.loggedBuddiesThisSession
        rw [he]
        exact List.mem_cons_self _ _
    · left
      show countName (s.logFile ++ [(u, st)]) n = countName s.logFile n
      rw [countName_append]
      simp [he]

theorem processObs_cons (s : LoggerState) (o : String × String)
    (obs : List (String × String)) :
    processObs s (o :: obs) = processObs (logBuddy s o.1 o.2) obs := rfl

theorem processObsV0_cons (s : LoggerState) (o : String × String)
    (obs : List (String × String)) :
    processObsV0 s (o :: obs) = processObsV0 (logBuddyV0 s o.1 o.2) obs := rfl

theorem processObs_frozen (obs : List (String × String)) :
    ∀ s n, (n ∈ s.ignoredUsernames ∨ n ∈ s.loggedBuddiesThisSession) →
    countName (processObs s obs).logFile n = countName s.logFile n := by
  induction obs with
  | nil => intro s n _; rfl
  | cons o obs ih =>
    intro s n h
    rw [processObs_cons]
    have hm : n ∈ (logBuddy s o.1 o.2).ignoredUsernames ∨
        n ∈ (logBuddy s o.1 o.2).loggedBuddiesThisSession := by
      rcases h with h | h
      · exact Or.inl (logBuddy_ign_mono s o.1 o.2 n h)
      · exact Or.inr (logBuddy_sess_mono s o.1 o.2 n h)
    rw [ih _ n hm, logBuddy_count_frozen s o.1 o.2 n h]

theorem processObsV0_frozen (obs : List (String × String)) :
    ∀ s n, (n ∈ s.ignoredUsernames ∨ n ∈ s.loggedBuddiesThisSession) →
    countName (processObsV0 s obs).logFile n = countName s.logFile n := by
  induction obs with
  | nil => intro s n _; rfl
  | cons o obs ih =>
    intro s n h
    rw [processObsV0_cons]
    have hm : n ∈ (logBuddyV0 s o.1 o.2).ignoredUsernames ∨
        n ∈ (logBuddyV0 s o.1 o.2).loggedBuddiesThisSession := by
      rcases h with h | h
      · exact Or.inl (logBuddyV0_ign_mono s o.1 o.2 n h)
      · exact Or.inr (logBuddyV0_sess_mono s o.1 o.2 n h)
    rw [ih _ n hm, logBuddyV0_count_frozen s o.1 o.2 n h]

theorem processObs_le (obs : List (String × String)) :
    ∀ s n, countName (processObs s obs).logFile n ≤ countName s.logFile n + 1 := by
  induction obs with
  | nil => intro s n; exact Nat.le_succ _
  | cons o obs ih =>
    intro s n
    rw [processObs_cons]
    rcases logBuddy_step s o.1 o.2 n with h | ⟨h1, h2⟩
    · calc countName (processObs (logBuddy s o.1 o.2) obs).logFile n
          ≤ countName (logBuddy s o.1 o.2).logFile n + 1 := ih _ n
        _ = countName s.logFile n + 1 := by rw [h]
    · rw [processObs_frozen obs _ n (Or.inr h2), h1]

theorem processObsV0_le (obs : List (String × String)) :
    ∀ s n, countName (processObsV0 s obs).logFile n ≤ countName s.logFile n + 1 := by
  induction obs with
  | nil => intro s n; exact Nat.le_succ _
  | cons o obs ih =>
    intro s n
    rw [processObsV0_cons]
    rcases logBuddyV0_step s o.1 o.2 n with h | ⟨h1, h2⟩
    · calc countName (processObsV0 (logBuddyV0 s o.1 o.2) obs).logFile n
          ≤ countName (logBuddyV0 s o.1 o.2).logFile n + 1 := ih _ n
        _ = countName s.logFile n + 1 := by rw [h]
    · rw [processObsV0_frozen obs _ n (Or.inr h2), h1]

theorem logBuddy_append_mem (s : LoggerState) (u st : String)
    (h : (logBuddy s u st).logFile ≠ s.logFile) :
    toLowerStr u ∈ (logBuddy s u st).loggedBuddiesThisSession := by
  unfold logBuddy at h ⊢
  dsimp only at h ⊢
  split_ifs at h ⊢ with h1 h2
  · exact absurd rfl h
  · exact absurd rfl h
  · exact List.mem_cons_self _ _

theorem logBuddyV0_append_mem (s : LoggerState) (u st : String)
    (h : (logBuddyV0 s u st).logFile ≠ s.logFile) :
    toLowerStr u ∈ (logBuddyV0 s u st).loggedBuddiesThisSession := by
  unfold logBuddyV0 at h ⊢
  dsimp only at h ⊢
  split_ifs at h ⊢ with h1 h2
  · exact absurd rfl h
  · exact absurd rfl h
  · exact List.mem_cons_self _ _

/-! ### The scan on records made of well-formed buddy entries -/

theorem entryFields_len (e : BuddyEntry) : (entryFields e).length = 3 := rfl

theorem getD_entry (pre l : List String) (e : BuddyEntry) (k : Nat) (d : String)
    (hk : k < 3) :
    (pre ++ (entryFields e ++ l)).getD (pre.length + k) d = (entryFields e).getD k d := by
  rw [List.getD_append_right _ _ _ _ (by omega)]
  have h2 : pre.length + k - pre.length = k := by omega
  rw [h2]
  exact List.getD_append _ _ _ _ (by rw [entryFields_len]; omega)

theorem scanBlAux_entries (es : List BuddyEntry) :
    ∀ (pre : List String) (fuel i : Nat),
    i ≤ pre.length →
    (∀ j, i ≤ j → j < pre.length → isUuid (pre.getD j "") = false) →
    (∀ e ∈ es, entryWf e) →
    (pre ++ es.flatMap entryFields).length - i ≤ fuel →
    scanBlAux fuel (pre ++ es.flatMap entryFields) i = es.map entryObs := by
  induction es with
  | nil =>
    intro pre fuel i hi hpre _ hfuel
    simp only [List.flatMap_nil, List.append_nil] at *
    have hnone : findUuid pre i = none := by
      apply findUuid_none_of
      intro j hj
      by_cases hjl : j < pre.length
      · exact hpre j hj hjl
      · rw [List.getD_eq_default _ _ (by omega)]
        exact isUuid_empty
    cases fuel with
    | zero => simp [scanBlAux]
    | succ f => simp [scanBlAux, hnone]
  | cons e es ih =>
    intro pre fuel i hi hpre hwf hfuel
    obtain ⟨hu, hne, hnum, huname, hst⟩ := hwf e (List.mem_cons_self _ _)
    have hwf' : ∀ x ∈ es, entryWf x := fun x hx => hwf x (List.mem_cons_of_mem _ hx)
    simp only [List.flatMap_cons] at *
    have hlen : (pre ++ (entryFields e ++ es.flatMap entryFields)).length
        = pre.length + 3 + (es.flatMap entryFields).length := by
      simp [entryFields]
      omega
    have hget0 : (pre ++ (entryFields e ++ es.flatMap entryFields)).getD pre.length ""
        = e.username := by
      have := getD_entry pre (es.flatMap entryFields) e 0 "" (by omega)
      rw [Nat.add_zero] at this
      rw [this]
      rfl
    have hget1 : (pre ++ (entryFields e ++ es.flatMap entryFields)).getD (pre.length + 1) ""
        = e.uuid := by
      rw [getD_entry pre (es.flatMap entryFields) e 1 "" (by omega)]
      rfl
    have hget2 : (pre ++ (entryFields e ++ es.flatMap entryFields)).getD (pre.length + 2) ""
        = e.status := by
      rw [getD_entry pre (es.flatMap entryFields) e 2 "" (by omega)]
      rfl
    have hfind : findUuid (pre ++ (entryFields e ++ es.flatMap entryFields)) i
        = some (pre.length + 1) := by
      apply findUuid_some_of
      · omega
      · omega
      · rw [hget1]
        exact hu
      · intro j hj1 hj2
        by_cases hjl : j < pre.length
        · rw [List.getD_append _ _ _ _ hjl]
          exact hpre j hj1 hjl
        · have hjp : j = pre.length := by omega
          subst hjp
          rw [hget0]
          exact huname
    cases fuel with
    | zero =>
      exfalso
      omega
    | succ f =>
      simp only [scanBlAux, hfind]
      have hobs : blObsAt (pre ++ (entryFields e ++ es.flatMap entryFields)) i (pre.length + 1)
          = [entryObs e] := by
        unfold blObsAt
        rw [if_pos (by omega : i < pre.length + 1)]
        dsimp only
        rw [show pre.length + 1 - 1 = pre.length from by omega, hget0,
          show pre.length + 1 + 1 = pre.length + 2 from by omega, hget2]
        rw [if_pos ⟨hne, hnum, huname⟩]
        rfl
      have hassoc : pre ++ (entryFields e ++ es.flatMap entryFields)
          = (pre ++ entryFields e) ++ es.flatMap entryFields := by
        rw [List.append_assoc]
      have hrec : scanBlAux f (pre ++ (entryFields e ++ es.flatMap entryFields))
          (pre.length + 2) = es.map entryObs := by
        rw [hassoc]
        apply ih (pre ++ entryFields e) f (pre.length + 2)
        · simp [entryFields]
        · intro j hj1 hj2
          simp only [List.length_append, entryFields_len] at hj2
          have hjp : j = pre.length + 2 := by omega
          subst hjp
          rw [List.getD_append_right _ _ _ _ (by omega)]
          rw [show pre.length + 2 - pre.length = 2 from by omega]
          have h3 : (entryFields e).getD 2 "" = e.status := rfl
          rw [h3]
          exact hst
        · exact hwf'
        · rw [← hassoc]
          omega
      rw [hobs, hrec]
      simp

/-! ### Claim theorems -/

/-- C1: an observation whose lowercased username is already in the ignore
set or the session set is never appended to the log file; whenever the sink
does append, it has added the lowercased name to the session set; hence
over any sequence of observations at most one log line is appended per
distinct lowercased username. Stated for both implementations of the
sink (`logBuddy` of `index.js` and `logBuddyV0` of `part_000`). -/
theorem c1_sink_dedup :
    (∀ s u st, (toLowerStr u ∈ s.ignoredUsernames ∨ toLowerStr u ∈ s.loggedBuddiesThisSession) →
      (logBuddy s u st).logFile = s.logFile) ∧
    (∀ s u st, (logBuddy s u st).logFile ≠ s.logFile →
      toLowerStr u ∈ (logBuddy s u st).loggedBuddiesThisSession) ∧
    (∀ s obs n, countName (processObs s obs).logFile n ≤ countName s.logFile n + 1) ∧
    (∀ s u st, (toLowerStr u ∈ s.ignoredUsernames ∨ toLowerStr u ∈ s.loggedBuddiesThisSession) →
      (logBuddyV0 s u st).logFile = s.logFile) ∧
    (∀ s u st, (logBuddyV0 s u st).logFile ≠ s.logFile →
      toLowerStr u ∈ (logBuddyV0 s u st).loggedBuddiesThisSession) ∧
    (∀ s obs n, countName (processObsV0 s obs).logFile n ≤ countName s.logFile n + 1) :=
  ⟨logBuddy_logFile_of_mem, logBuddy_append_mem, fun s obs n => processObs_le obs s n,
   logBuddyV0_logFile_of_mem, logBuddyV0_append_mem, fun s obs n => processObsV0_le obs s n⟩

theorem c1_sink_dedup_witness :
    (logBuddy ⟨true, none, [], ["alice"], [], [], none⟩ "Alice" "online").logFile
      = (⟨true, none, [], ["alice"], [], [], none⟩ : LoggerState).logFile ∧
    countName (processObs ⟨true, none, [], [], [], [], none⟩
        [("Alice", "0"), ("alice", "1"), ("ALICE", "0")]).logFile "alice"
      ≤ countName (⟨true, none, [], [], [], [], none⟩ : LoggerState).logFile "alice" + 1 :=
  ⟨c1_sink_dedup.1 _ "Alice" "online" (Or.inr (by decide)),
   c1_sink_dedup.2.2.1 _ [("Alice", "0"), ("alice", "1"), ("ALICE", "0")] "alice"⟩

theorem logBuddyV0_append (s : LoggerState) (u st : String)
    (hen : s.isLoggingEnabled = true)
    (h : ¬(toLowerStr u ∈ s.ignoredUsernames ∨ toLowerStr u ∈ s.loggedBuddiesThisSession)) :
    logBuddyV0 s u st = { s with
      loggedBuddiesThisSession := toLowerStr u :: s.loggedBuddiesThisSession,
      logFile := s.logFile ++ [(u, st)] } := by
  unfold logBuddyV0
  dsimp only
  rw [if_neg (by simp [hen]), if_neg h]

/-- C5: after the session-clear command empties the session set, a username
that is not ignore-listed (such as any username previously logged by the
`part_000` sink, which never adds to the ignore set) is, over any non-empty
run of repeated observations of it with logging enabled, appended to the
log exactly once more. -/
theorem c5_clear_relog (s : LoggerState) (name : String) (statuses : List String)
    (hen : s.isLoggingEnabled = true)
    (hig : toLowerStr name ∉ s.ignoredUsernames)
    (hprev : toLowerStr name ∈ s.loggedBuddiesThisSession)
    (hne : statuses ≠ []) :
    countName (processObsV0 (handleClearCommand s)
        (statuses.map (fun st => (name, st)))).logFile (toLowerStr name)
      = countName s.logFile (toLowerStr name) + 1 := by
  cases statuses with
  | nil => exact absurd rfl hne
  | cons st0 rest =>
    simp only [List.map_cons]
    rw [processObsV0_cons]
    have hcond : ¬(toLowerStr name ∈ (handleClearCommand s).ignoredUsernames ∨
        toLowerStr name ∈ (handleClearCommand s).loggedBuddiesThisSession) := by
      rintro (h | h)
      · exact hig h
      · simp [handleClearCommand] at h
    rw [logBuddyV0_append (handleClearCommand s) name st0 hen hcond]
    rw [processObsV0_frozen _ _ _ (Or.inr (List.mem_cons_self _ _))]
    show countName ((handleClearCommand s).logFile ++ [(name, st0)]) (toLowerStr name)
      = countName s.logFile (toLowerStr name) + 1
    rw [countName_append]
    simp [handleClearCommand]

theorem c5_clear_relog_witness :
    countName (processObsV0
        (handleClearCommand ⟨true, none, ["bob"], ["alice"], [("Alice", "0")], [], none⟩)
        (["online", "online", "offline"].map (fun st => ("Alice", st)))).logFile
        (toLowerStr "Alice")
      = countName ([("Alice", "0")] : List (String × String)) (toLowerStr "Alice") + 1 :=
  c5_clear_relog ⟨true, none, ["bob"], ["alice"], [("Alice", "0")], [], none⟩ "Alice"
    ["online", "online", "offline"] rfl (by decide) (by decide) (by decide)

/-- C2: a well-formed `bl` record built from `N` UUID-bracketed buddy
entries yields exactly `N` observations, in record order, each username the
field immediately preceding its UUID and each status the field immediately
following it (`"unknown"` when empty); in particular the spec's example
record yields `[(Alice, 0), (Bob, 1)]`. -/
theorem c2_bl_extraction (es : List BuddyEntry) (hwf : ∀ e ∈ es, entryWf e) :
    extractBl (blRecord es) = es.map entryObs ∧
    extractBl ["", "xt", "bl", "-1", "0", "0", "Alice",
        "11111111-2222-3333-4444-555555555555", "0", "Bob",
        "66666666-7777-8888-9999-aaaaaaaaaaaa", "1"]
      = [("Alice", "0"), ("Bob", "1")] := by
  constructor
  · unfold extractBl blRecord
    have h1 : (["", "xt", "bl", "-1", "0", "0"] ++ es.flatMap entryFields).getD 1 ""
        = "xt" := (List.getD_append _ _ _ _ (by norm_num)).trans rfl
    have h2 : (["", "xt", "bl", "-1", "0", "0"] ++ es.flatMap entryFields).getD 2 ""
        = "bl" := (List.getD_append _ _ _ _ (by norm_num)).trans rfl
    have h4 : (["", "xt", "bl", "-1", "0", "0"] ++ es.flatMap entryFields).getD 4 ""
        = "0" := (List.getD_append _ _ _ _ (by norm_num)).trans rfl
    have hshape : blShape (["", "xt", "bl", "-1", "0", "0"] ++ es.flatMap entryFields)
        = true := by
      unfold blShape
      rw [h1, h2, h4]
      simp [List.length_append]
    rw [if_pos hshape]
    apply scanBlAux_entries es ["", "xt", "bl", "-1", "0", "0"] _ 5
    · norm_num
    · intro j hj1 hj2
      have hj : j = 5 := by
        simp at hj2
        omega
      subst hj
      decide
    · exact hwf
    · exact Nat.sub_le _ _
  · decide

theorem c2_bl_extraction_witness :
    extractBl (blRecord [⟨"Alice", "11111111-2222-3333-4444-555555555555", "0"⟩,
        ⟨"Bob", "66666666-7777-8888-9999-aaaaaaaaaaaa", "1"⟩])
      = [⟨"Alice", "11111111-2222-3333-4444-555555555555", "0"⟩,
         ⟨"Bob", "66666666-7777-8888-9999-aaaaaaaaaaaa", "1"⟩].map entryObs :=
  (c2_bl_extraction [⟨"Alice", "11111111-2222-3333-4444-555555555555", "0"⟩,
      ⟨"Bob", "66666666-7777-8888-9999-aaaaaaaaaaaa", "1"⟩]
    (by decide)).1

/-- C8: the `bl` scan loop terminates on every finite field sequence: with
at least `parts.length - i` fuel the fueled loop's result no longer depends
on the fuel (the loop ends); every UUID match lies in `[i, parts.length)`
(forward progress), and the match found after resuming at `u + 1` is
strictly beyond `u`, so no UUID is matched twice. -/
theorem c8_scan_terminates (parts : List String) (i fuel fuel' : Nat)
    (h : parts.length - i ≤ fuel) (h' : parts.length - i ≤ fuel') :
    scanBlAux fuel parts i = scanBlAux fuel' parts i ∧
    (∀ u, findUuid parts i = some u → i ≤ u ∧ u < parts.length) ∧
    (∀ u u', findUuid parts i = some u → findUuid parts (u + 1) = some u' → u < u') := by
  refine ⟨scanBlAux_fuel parts fuel fuel' i h h',
    fun u hu => findUuid_bounds parts i u hu, ?_⟩
  intro u u' hu hu'
  have := findUuid_bounds parts (u + 1) u' hu'
  omega

theorem c8_scan_terminates_witness :
    scanBlAux 12 ["", "xt", "bl", "-1", "0", "0", "Alice",
        "11111111-2222-3333-4444-555555555555", "0"] 5
      = scanBlAux 20 ["", "xt", "bl", "-1", "0", "0", "Alice",
        "11111111-2222-3333-4444-555555555555", "0"] 5 ∧
    (∀ u, findUuid ["", "xt", "bl", "-1", "0", "0", "Alice",
        "11111111-2222-3333-4444-555555555555", "0"] 5 = some u →
      5 ≤ u ∧ u < (["", "xt", "bl", "-1", "0", "0", "Alice",
        "11111111-2222-3333-4444-555555555555", "0"] : List String).length) ∧
    (∀ u u', findUuid ["", "xt", "bl", "-1", "0", "0", "Alice",
        "11111111-2222-3333-4444-555555555555", "0"] 5 = some u →
      findUuid ["", "xt", "bl", "-1", "0", "0", "Alice",
        "11111111-2222-3333-4444-555555555555", "0"] (u + 1) = some u' → u < u') :=
  c8_scan_terminates ["", "xt", "bl", "-1", "0", "0", "Alice",
    "11111111-2222-3333-4444-555555555555", "0"] 5 12 20 (by decide) (by decide)

/-- C3 as frozen is false: a `ba` record whose header and length match but
whose field at index 4 is empty yields no observation, not one. -/
theorem c3_counterexample :
    ¬ ((extractBa ["", "xt", "ba", "1", "",
        "55555555-5555-5555-5555-555555555555", "online"]).length = 1) := by
  decide

/-- C3 (amended): for every `ba` record with matching header and length
whose field at index 4 is non-empty, the extractor returns exactly one
observation with that field as username and the field at index 6 as status,
defaulting to `"online"` when it is empty; the spec's example record yields
`{Carol, online}`. -/
theorem c3_ba_extraction (parts : List String)
    (hlen : 7 ≤ parts.length) (h1 : parts.getD 1 "" = "xt")
    (h2 : parts.getD 2 "" = "ba") (hu : parts.getD 4 "" ≠ "") :
    extractBa parts
      = [(parts.getD 4 "", if parts.getD 6 "" = "" then "online" else parts.getD 6 "")] ∧
    extractBa ["", "xt", "ba", "1", "Carol", "uuid", "online"] = [("Carol", "online")] := by
  constructor
  · unfold extractBa
    have hshape : baShape parts = true := by
      unfold baShape
      rw [h1, h2]
      simp [hlen]
    rw [if_pos hshape]
    dsimp only
    rw [if_pos hu]
  · decide

theorem c3_ba_extraction_witness :
    extractBa ["", "xt", "ba", "1", "Carol", "uuid", "online"]
      = [((["", "xt", "ba", "1", "Carol", "uuid", "online"] : List String).getD 4 "",
          if (["", "xt", "ba", "1", "Carol", "uuid", "online"] : List String).getD 6 "" = ""
          then "online"
          else (["", "xt", "ba", "1", "Carol", "uuid", "online"] : List String).getD 6 "")] ∧
    extractBa ["", "xt", "ba", "1", "Carol", "uuid", "online"] = [("Carol", "online")] :=
  c3_ba_extraction ["", "xt", "ba", "1", "Carol", "uuid", "online"]
    (by decide) (by decide) (by decide) (by decide)

/-- C4: a record matching none of the three documented shapes produces no
observation from any extractor (the extractors are total functions, so no
error is possible), and every handler leaves the state — the two in-memory
sets, the log file, and everything else — unchanged. -/
theorem c4_unmatched_noop (parts : List String) (s : LoggerState)
    (hbl : blShape parts = false) (hba : baShape parts = false)
    (hbon : bonShape parts = false) :
    extractBl parts = [] ∧ extractBa parts = [] ∧ extractBon parts = [] ∧
    handleBuddyList s parts = s ∧ handleBuddyAdded s parts = s ∧
    handleBuddyOnline s parts = s := by
  have e1 : extractBl parts = [] := by simp [extractBl, hbl]
  have e2 : extractBa parts = [] := by simp [extractBa, hba]
  have e3 : extractBon parts = [] := by simp [extractBon, hbon]
  refine ⟨e1, e2, e3, ?_, ?_, ?_⟩
  · unfold handleBuddyList
    rw [e1]
    split_ifs <;> rfl
  · unfold handleBuddyAdded
    rw [e2]
    split_ifs <;> rfl
  · unfold handleBuddyOnline
    rw [e3]
    split_ifs <;> rfl

theorem c4_unmatched_noop_witness :
    extractBl ["hello", "world"] = [] ∧ extractBa ["hello", "world"] = [] ∧
    extractBon ["hello", "world"] = [] ∧
    handleBuddyList ⟨true, none, [], [], [], [], none⟩ ["hello", "world"]
      = ⟨true, none, [], [], [], [], none⟩ ∧
    handleBuddyAdded ⟨true, none, [], [], [], [], none⟩ ["hello", "world"]
      = ⟨true, none, [], [], [], [], none⟩ ∧
    handleBuddyOnline ⟨true, none, [], [], [], [], none⟩ ["hello", "world"]
      = ⟨true, none, [], [], [], [], none⟩ :=
  c4_unmatched_noop ["hello", "world"] ⟨true, none, [], [], [], [], none⟩
    (by decide) (by decide) (by decide)

/-- C6: with no argument the toggle command negates the enabled flag, and
doing so twice restores it; `on`/`enable` force it to `true` and
`off`/`disable` force it to `false` whatever the prior value. -/
theorem c6_toggle (s : LoggerState) (rest : List String) :
    (handleLogCommand s []).isLoggingEnabled = !s.isLoggingEnabled ∧
    (handleLogCommand (handleLogCommand s []) []).isLoggingEnabled = s.isLoggingEnabled ∧
    (handleLogCommand s ("on" :: rest)).isLoggingEnabled = true ∧
    (handleLogCommand s ("enable" :: rest)).isLoggingEnabled = true ∧
    (handleLogCommand s ("off" :: rest)).isLoggingEnabled = false ∧
    (handleLogCommand s ("disable" :: rest)).isLoggingEnabled = false := by
  refine ⟨rfl, ?_, rfl, rfl, rfl, rfl⟩
  show (!!s.isLoggingEnabled) = s.isLoggingEnabled
  simp

/-- C7: directory resolution returns a configured (non-empty) custom path
unconditionally; with no custom path it returns the `data` directory when
that exists and the desktop directory otherwise. -/
theorem c7_base_path (p defaultDataPath desktopPath : String) (d : Bool) (hp : p ≠ "") :
    getBasePath (some p) defaultDataPath desktopPath d = p ∧
    getBasePath none defaultDataPath desktopPath true = defaultDataPath ∧
    getBasePath none defaultDataPath desktopPath false = desktopPath := by
  refine ⟨?_, rfl, rfl⟩
  simp [getBasePath, strTruthy, hp]

theorem c7_base_path_witness :
    getBasePath (some "/logs") "data" "desktop" false = "/logs" ∧
    getBasePath none "data" "desktop" true = "data" ∧
    getBasePath none "data" "desktop" false = "desktop" :=
  c7_base_path "/logs" "data" "desktop" false (by decide)

/-- C9: a `ba` or `bon` record whose header and length match but whose
field at index 4 is the empty string produces no observation. -/
theorem c9_empty_username_skipped (pa pb : List String) :
    (7 ≤ pa.length → pa.getD 1 "" = "xt" → pa.getD 2 "" = "ba" →
      pa.getD 4 "" = "" → extractBa pa = []) ∧
    (5 ≤ pb.length → pb.getD 1 "" = "xt" → pb.getD 2 "" = "bon" →
      pb.getD 4 "" = "" → extractBon pb = []) := by
  constructor
  · intro hlen h1 h2 h4
    unfold extractBa
    dsimp only
    rw [h4]
    simp
  · intro hlen h1 h2 h4
    unfold extractBon
    dsimp only
    rw [h4]
    simp

theorem c9_empty_username_skipped_witness :
    extractBa ["", "xt", "ba", "1", "", "uuid", "online"] = [] ∧
    extractBon ["", "xt", "bon", "1", ""] = [] :=
  ⟨(c9_empty_username_skipped ["", "xt", "ba", "1", "", "uuid", "online"]
      ["", "xt", "bon", "1", ""]).1 (by decide) (by decide) (by decide) (by decide),
   (c9_empty_username_skipped ["", "xt", "ba", "1", "", "uuid", "online"]
      ["", "xt", "bon", "1", ""]).2 (by decide) (by decide) (by decide) (by decide)⟩

/-- C10: the toggle command invoked with `status`, or with any argument
that is none of `on`/`enable`/`off`/`disable` (case-insensitively), leaves
the whole state — enabled flag, both sets, custom path, persisted config,
and files — unchanged. -/
theorem c10_status_invalid_noop (s : LoggerState) (rest : List String) (a : String)
    (h1 : toLowerStr a ≠ "on") (h2 : toLowerStr a ≠ "enable")
    (h3 : toLowerStr a ≠ "off") (h4 : toLowerStr a ≠ "disable") :
    handleLogCommand s ("status" :: rest) = s ∧ handleLogCommand s (a :: rest) = s := by
  constructor
  · rfl
  · unfold handleLogCommand
    dsimp only
    rw [if_neg (by simp [h1, h2]), if_neg (by simp [h3, h4])]
    split_ifs <;> rfl

theorem c10_status_invalid_noop_witness :
    handleLogCommand ⟨true, some "/logs", ["x"], ["y"], [("A", "online")], ["A"], none⟩
        ["status"]
      = ⟨true, some "/logs", ["x"], ["y"], [("A", "online")], ["A"], none⟩ ∧
    handleLogCommand ⟨true, some "/logs", ["x"], ["y"], [("A", "online")], ["A"], none⟩
        ["bogus"]
      = ⟨true, some "/logs", ["x"], ["y"], [("A", "online")], ["A"], none⟩ :=
  c10_status_invalid_noop ⟨true, some "/logs", ["x"], ["y"], [("A", "online")], ["A"], none⟩
    [] "bogus" (by decide) (by decide) (by decide) (by decide)
